import Mathlib

/-!
Verification of the restpp repository: the URI parser of
`include/restpp/core/uri.hpp` and the synchronous fetch engine of
`include/restpp/fetch.hpp`, embedded shallowly in Lean.

Conventions of the embedding:
- C++ `std::string` values become `List Char`.
- Functions that throw become `Except`- or `Option`-valued functions; the
  thrown exception (or its `what()` message) is the error value.
- `std::size_t` arithmetic is made explicit where wraparound matters
  (`std::string::npos + 3` wraps to `2`).
- The network, which the fetch engine only consumes, is modelled by the
  result of each blocking call: whether resolution, connection and the
  write succeed, and the full byte sequence the peer sends before closing
  the connection.
-/

/- ===== Character classification (uri.hpp, anonymous namespace) =====
   These mirror the C locale functions on ASCII, exactly as the
   `is_*_character` helpers in the source use them. -/

/-- C `isalnum` on ASCII, as used by `utility::details::is_alnum`. -/
def isAlnumC (c : Char) : Bool :=
  c.isAlpha || c.isDigit

/-- Source `is_unreserved`: alnum or one of `-`, `.`, `_`, `~`. -/
def isUnreserved (c : Char) : Bool :=
  isAlnumC c || c = '-' || c = '.' || c = '_' || c = '~'

/-- Source `is_sub_delim`: the RFC 3986 sub-delimiter characters. -/
def isSubDelim (c : Char) : Bool :=
  c = '!' || c = '$' || c = '&' || c = '\'' || c = '(' || c = ')' ||
  c = '*' || c = '+' || c = ',' || c = ';' || c = '='

/-- Source `is_scheme_character`: alnum or `+`, `-`, `.`. -/
def isSchemeChar (c : Char) : Bool :=
  isAlnumC c || c = '+' || c = '-' || c = '.'

/-- Source `is_user_info_character`: unreserved, sub-delim, `%` or `:`. -/
def isUserInfoChar (c : Char) : Bool :=
  isUnreserved c || isSubDelim c || c = '%' || c = ':'

/-- Source `is_authority_character`: unreserved, sub-delim, `%`, `@`, `:`, `[`, `]`. -/
def isAuthorityChar (c : Char) : Bool :=
  isUnreserved c || isSubDelim c || c = '%' || c = '@' || c = ':' || c = '[' || c = ']'

/-- Source `is_path_character`: unreserved, sub-delim, `%`, `/`, `:`, `@`. -/
def isPathChar (c : Char) : Bool :=
  isUnreserved c || isSubDelim c || c = '%' || c = '/' || c = ':' || c = '@'

/-- Source `is_query_character`: any path character or `?`. -/
def isQueryChar (c : Char) : Bool :=
  isPathChar c || c = '?'

/-- Source `is_fragment_character`: same set as the query characters. -/
def isFragmentChar (c : Char) : Bool :=
  isQueryChar c

/- ===== String primitives =====
   `std::string::find`, `substr` and C `atoi`, on `List Char`. -/

/-- Source `std::string::find(pattern)`: index of the first occurrence of
`pat` as a contiguous substring, or `none` for `npos`. -/
def findSub : List Char → List Char → Option Nat
  | [], pat => if pat.isPrefixOf ([] : List Char) then some 0 else none
  | c :: rest, pat =>
    if pat.isPrefixOf (c :: rest) then some 0
    else (findSub rest pat).map (· + 1)

/-- Whether `pat` occurs as a contiguous substring of `l`. -/
def containsSub (l pat : List Char) : Bool :=
  (findSub l pat).isSome

/-- Source `std::string::find(c, start)`: index of the first occurrence of the
character `c` at or after position `start`. -/
def findCharFrom (l : List Char) (c : Char) (start : Nat) : Option Nat :=
  ((l.drop start).findIdx? (fun x => x = c)).map (· + start)

/-- Numeric value of a digit string (most significant first); 0 when empty. -/
def digitsVal (l : List Char) : Nat :=
  l.foldl (fun acc c => acc * 10 + (c.toNat - 48)) 0

/-- C `isspace` on ASCII: space, `\t`, `\n`, `\v`, `\f`, `\r`. -/
def isSpaceC (c : Char) : Bool :=
  c = ' ' || c = '\t' || c = '\n' || c = '\x0b' || c = '\x0c' || c = '\r'

/-- C `atoi`: skip leading whitespace, optional sign, then a digit run;
0 when no digits are found.  (Overflow is undefined in C and modelled as
the exact integer value.) -/
def atoiC (s : List Char) : Int :=
  match s.dropWhile isSpaceC with
  | '-' :: rest => - (digitsVal (rest.takeWhile Char.isDigit) : Int)
  | '+' :: rest => (digitsVal (rest.takeWhile Char.isDigit) : Int)
  | t => (digitsVal (t.takeWhile Char.isDigit) : Int)

/- ===== The public URI type (uri.hpp, class uri) ===== -/

/-- The fields of `restpp::details::uri_components`.  The default
constructor sets `_path` to `/` and `_port` to `-1`; `uri::parse`
overwrites `_scheme`, `_host`, `_port` and `_path` and never touches
`_userInfo`, `_query` or `_fragment`, which stay empty. -/
structure uri_components where
  scheme : List Char
  host : List Char
  userInfo : List Char
  path : List Char
  query : List Char
  fragment : List Char
  port : Int
  deriving DecidableEq, Repr

/-- Failures of URI construction: `emptyInput` is the `uri_exception`
thrown by `uri::uri(const utility::char_t*)` on a zero-length string;
`rangeError` is the `std::out_of_range` that `substr` raises inside
`uri::parse` when `host_start` exceeds the string length. -/
inductive uri_error where
  | emptyInput
  | rangeError
  deriving DecidableEq, Repr

/-- Source `restpp::uri::parse` (the private member actually invoked by the
constructors): locate `://`, cut out scheme, host, optional numeric port
(defaulting to 443 for the exact scheme string `https`, else 80), and
take the whole remainder from the first `/` after the authority as the
path.  No validation, no lowercasing, and no query/fragment split is
performed.  When `://` is absent, `find` returns `npos` and
`host_start = npos + 3` wraps to `2`; `substr` then throws
`std::out_of_range` whenever `2` exceeds the length. -/
def uri_parse (url : List Char) : Except uri_error uri_components :=
  let schemeEnd := findSub url [':', '/', '/']
  let scheme := match schemeEnd with
    | some i => url.take i
    | none => url
  let hostStart := match schemeEnd with
    | some i => i + 3
    | none => 2
  if url.length < hostStart then
    .error .rangeError
  else
    let pathStart := findCharFrom url '/' hostStart
    let hostFull := match pathStart with
      | some p => (url.drop hostStart).take (p - hostStart)
      | none => url.drop hostStart
    let portPos := hostFull.findIdx? (fun c => c = ':')
    .ok
      { scheme := scheme
        host := match portPos with
          | some pp => hostFull.take pp
          | none => hostFull
        userInfo := []
        path := match pathStart with
          | some p => url.drop p
          | none => ['/']
        query := []
        fragment := []
        port := match portPos with
          | some pp => atoiC (hostFull.drop (pp + 1))
          | none => if scheme = "https".toList then 443 else 80 }

/-- Source `restpp::uri::uri(const utility::char_t*)`: throw `uri_exception`
for a zero-length input, otherwise run `parse`. -/
def uri_from_string (s : List Char) : Except uri_error uri_components :=
  if s.length = 0 then .error .emptyInput else uri_parse s

/- ===== The validating scanner (uri.hpp, details::inner_parse_out) =====
   This is the RFC 3986 scanner sketched in the same header.  It is
   *not* invoked by the `uri` class: `uri::uri` calls the basic
   `uri::parse` above.  It is embedded because the specification's
   validation claims trace to it. -/

/-- Result of `inner_parse_out::parse_from`: the component spans, as the
texts they delimit (`none` when the corresponding begin pointer stays
null).  `port` keeps its initializer 0 when no port is parsed. -/
structure inner_parse_out where
  scheme : Option (List Char)
  uinfo : Option (List Char)
  host : Option (List Char)
  port : Int
  path : Option (List Char)
  query : Option (List Char)
  fragment : Option (List Char)
  deriving DecidableEq, Repr

/-- The disambiguation loop at the top of `parse_from`: scan until a
`/` or the terminator; a `:` found first marks an absolute URI. -/
def hasColonBeforeSlash : List Char → Bool
  | [] => false
  | c :: rest =>
    if c = '/' then false
    else if c = ':' then true
    else hasColonBeforeSlash rest

/-- The scheme loop of `parse_from`, after the first (alpha-checked)
character: advance until the `:`, failing on any non-scheme character.
Returns the scanned characters and the rest after the colon.  Running
off the end (no colon, unreachable for an absolute URI) is a failure. -/
def schemeScan : List Char → Option (List Char × List Char)
  | [] => none
  | c :: rest =>
    if c = ':' then some ([], rest)
    else if isSchemeChar c then
      match schemeScan rest with
      | some pr => some (c :: pr.1, pr.2)
      | none => none
    else none

/-- A generic forward segment loop of `parse_from`: advance until one
of the delimiters in `stops` or the end of the string, failing on a
character outside the segment's legal set.  Returns the scanned
characters and the rest beginning at the delimiter. -/
def segScan (stops : List Char) (good : Char → Bool) : List Char → Option (List Char × List Char)
  | [] => some ([], [])
  | c :: rest =>
    if stops.contains c then some ([], c :: rest)
    else if good c then
      match segScan stops good rest with
      | some pr => some (c :: pr.1, pr.2)
      | none => none
    else none

/-- Number of trailing decimal digits, for the backward port scan. -/
def trailingDigits (l : List Char) : Nat :=
  (l.reverse.takeWhile Char.isDigit).length

/-- The backward port scan of `parse_from` over a non-empty authority:
`port_begin` walks back from the last character over digits, stopping
before the first position; a `:` there splits host from the digit run
(which `scan_string<int>` reads, yielding 0 when empty). -/
def splitPort (auth : List Char) : List Char × Option Int :=
  let idx := auth.length - 1 - min (trailingDigits auth) (auth.length - 1)
  if auth.get? idx = some ':' then
    (auth.take idx, some (digitsVal (auth.drop (idx + 1)) : Int))
  else
    (auth, none)

/-- The user-info scan of `parse_from`: walk forward over user-info
characters, stopping at the end of the host span; an `@` at the stop
position splits user-info from the host.  (When the scan reaches the
end of the host span the character there is the port colon or a
delimiter, never `@`, so checking within the span is faithful.) -/
def splitUserInfo (hostSeg : List Char) : Option (List Char) × List Char :=
  let k := (hostSeg.takeWhile isUserInfoChar).length
  if hostSeg.get? k = some '@' then
    (some (hostSeg.take k), hostSeg.drop (k + 1))
  else
    (none, hostSeg)

/-- Source `inner_parse_out::parse_from`: the full validating single pass —
scheme (first character alpha, rest scheme characters), optional
`//`-introduced authority validated against the authority set and split
into user-info, host and numeric port, then path, query and fragment,
each validated against its character set.  `none` models `return
false`. -/
def parse_from (s : List Char) : Option inner_parse_out :=
  let schemeStep : Option (Option (List Char) × List Char) :=
    if hasColonBeforeSlash s then
      match s with
      | [] => none
      | c :: rest =>
        if c.isAlpha then
          match schemeScan rest with
          | some pr => some (some (c :: pr.1), pr.2)
          | none => none
        else none
    else some (none, s)
  match schemeStep with
  | none => none
  | some (schemeOpt, p1) =>
    let authStep : Option (Option (List Char) × List Char) :=
      match p1 with
      | '/' :: '/' :: rest =>
        match segScan ['/', '?', '#'] isAuthorityChar rest with
        | some pr => some (some pr.1, pr.2)
        | none => none
      | _ => some (none, p1)
    match authStep with
    | none => none
    | some (authOpt, p2) =>
      let hostPart : Option (List Char) × Option (List Char) × Int :=
        match authOpt with
        | some auth =>
          if auth.isEmpty then (none, none, 0)
          else
            let hp := splitPort auth
            let ui := splitUserInfo hp.1
            (ui.1, some ui.2, hp.2.getD 0)
        | none => (none, none, 0)
      let pathStep : Option (Option (List Char) × List Char) :=
        match p2 with
        | [] => some (none, [])
        | c :: _ =>
          if c = '/' || isPathChar c then
            match segScan ['?', '#'] isPathChar p2 with
            | some pr => some (some pr.1, pr.2)
            | none => none
          else some (none, p2)
      match pathStep with
      | none => none
      | some (pathOpt, p3) =>
        let queryStep : Option (Option (List Char) × List Char) :=
          match p3 with
          | '?' :: rest =>
            match segScan ['#'] isQueryChar rest with
            | some pr => some (some pr.1, pr.2)
            | none => none
          | _ => some (none, p3)
        match queryStep with
        | none => none
        | some (queryOpt, p4) =>
          let fragStep : Option (Option (List Char)) :=
            match p4 with
            | '#' :: rest =>
              match segScan [] isFragmentChar rest with
              | some pr => some (some pr.1)
              | none => none
            | _ => some none
          match fragStep with
          | none => none
          | some fragOpt =>
            some
              { scheme := schemeOpt
                uinfo := hostPart.1
                host := hostPart.2.1
                port := hostPart.2.2
                path := pathOpt
                query := queryOpt
                fragment := fragOpt }

/-- C `tolower` on ASCII, as `utility::details::inplace_tolower`
applies it character by character. -/
def toLowerC (c : Char) : Char :=
  if 'A' ≤ c && c ≤ 'Z' then Char.ofNat (c.toNat + 32) else c

/-- Source `inner_parse_out::write_to`: copy the spans into `uri_components`,
lowercasing scheme and host, defaulting the path to `/` and clearing
absent query/fragment; the port is copied as scanned (0 when absent —
this path applies no scheme-based default). -/
def write_to (r : inner_parse_out) : uri_components :=
  { scheme := (r.scheme.getD []).map toLowerC
    host := (r.host.getD []).map toLowerC
    userInfo := r.uinfo.getD []
    path := r.path.getD ['/']
    query := r.query.getD []
    fragment := r.fragment.getD []
    port := r.port }

/- ===== Request options (core/options.hpp) ===== -/

/-- Source `std::string` comparison: lexicographic on the character values, as
`std::map<std::string, std::string>` orders its keys. -/
def strLt : List Char → List Char → Bool
  | [], [] => false
  | [], _ :: _ => true
  | _ :: _, [] => false
  | a :: as, b :: bs =>
    if a < b then true
    else if b < a then false
    else strLt as bs

/-- Source `std::map::insert`: keep the entries sorted by key; an insert with
an already-present key leaves the map unchanged. -/
def mapInsert (m : List (List Char × List Char)) (kv : List Char × List Char) :
    List (List Char × List Char) :=
  match m with
  | [] => [kv]
  | e :: rest =>
    if strLt kv.1 e.1 then kv :: e :: rest
    else if strLt e.1 kv.1 then e :: mapInsert rest kv
    else e :: rest

/-- Source `restpp::options`: a method string and a header map.  `headers` is
the `std::map` held in its iteration (key-sorted) order. -/
structure options where
  method : List Char
  headers : List (List Char × List Char)
  deriving DecidableEq, Repr

/-- The `options` default constructor: method `GET` and a single
`User-Agent` entry. -/
def options_default : options :=
  { method := "GET".toList
    headers := mapInsert [] ("User-Agent".toList, "restpp.io client".toList) }

/- ===== Response value (core/response.hpp) ===== -/

/-- Source `restpp::response`: status code, the raw header text accumulated by
fetch, and the body text. -/
structure response where
  status_code : Int
  headers : List Char
  body : List Char
  deriving DecidableEq, Repr

/- ===== The fetch engine (fetch.hpp) ===== -/

/-- The observable behavior of the network during one fetch call: the
outcome of resolution, connection and the request write (`Except.error`
carries the `what()` message of the exception the failing Asio call
throws), and the full byte sequence the peer sends before cleanly
closing the connection. -/
structure net_behavior where
  resolveStep : Except (List Char) Unit
  connectStep : Except (List Char) Unit
  writeStep : Except (List Char) Unit
  wire : List Char
  deriving Repr

/-- A network whose calls all succeed and whose peer sends `wire`. -/
def netOk (wire : List Char) : net_behavior :=
  { resolveStep := .ok (), connectStep := .ok (), writeStep := .ok (), wire := wire }

/-- CRLF. -/
def crlf : List Char := ['\r', '\n']

/-- The `what()` message of the `boost::system::system_error` that
`read_until` throws when the peer closes before a CRLF is seen. -/
def eofWhileReadingMsg : List Char := "End of file".toList

/-- Source `std::istream` over the drained `streambuf`: the remaining
characters plus the fail flag (set by an extraction that obtains
nothing). -/
structure istream_state where
  data : List Char
  failed : Bool
  deriving DecidableEq, Repr

/-- Source `response_stream >> http_version`: skip whitespace, then extract a
maximal non-whitespace token; extracting nothing sets the fail flag. -/
def extractToken (s : istream_state) : List Char × istream_state :=
  if s.failed then ([], s)
  else
    let d := s.data.dropWhile isSpaceC
    let tok := d.takeWhile (fun c => !(isSpaceC c))
    if tok.isEmpty then ([], { data := d, failed := true })
    else (tok, { data := d.dropWhile (fun c => !(isSpaceC c)), failed := false })

/-- Source `response_stream >> status_code` for an unsigned integer: skip
whitespace, then extract a digit run; no digit sets the fail flag (and
since C++11 stores 0). -/
def extractUInt (s : istream_state) : Nat × istream_state :=
  if s.failed then (0, s)
  else
    let d := s.data.dropWhile isSpaceC
    let digs := d.takeWhile Char.isDigit
    if digs.isEmpty then (0, { data := d, failed := true })
    else (digitsVal digs, { data := d.dropWhile Char.isDigit, failed := false })

/-- Source `std::getline`: read up to and consuming the next `\n` (which is
dropped from the line); extracting zero characters at end of data sets
the fail flag. -/
def getlineS (s : istream_state) : List Char × istream_state :=
  if s.failed then ([], s)
  else if s.data.isEmpty then ([], { data := [], failed := true })
  else
    (s.data.takeWhile (fun c => c ≠ '\n'),
     { data := (s.data.dropWhile (fun c => c ≠ '\n')).drop 1, failed := false })

/-- The header loop of `fetch`: `while (getline(...) && line != "\r")`
accumulating `line + "\n"` into the headers string.  `fuel` bounds the
iteration count (each successful `getline` consumes at least one
character, so `data.length + 1` suffices). -/
def readHeaderLines (fuel : Nat) (s : istream_state) : List Char × istream_state :=
  match fuel with
  | 0 => ([], s)
  | fuel + 1 =>
    let ls := getlineS s
    if ls.2.failed then ([], ls.2)
    else if ls.1 = ['\r'] then ([], ls.2)
    else
      let rest := readHeaderLines fuel ls.2
      (ls.1 ++ '\n' :: rest.1, rest.2)

/-- One fetch attempt as the `try` block sees it: either the response
value it builds, or the message of the exception that escapes to the
`catch` handler. -/
inductive fetch_step where
  | ok (r : response)
  | exn (msg : List Char)
  deriving DecidableEq, Repr

/-- The read-and-parse half of `fetch`, applied to everything the peer
sends before closing.  `read_until` throws when no CRLF ever arrives;
otherwise (the single-delivery behavior: the whole transmission is
buffered) the status line is parsed with `>>`/`getline`, a missing
`HTTP/` prefix or a failed stream raises `runtime_error("Invalid
response")`, the header loop runs to the first `"\r"` line, and the
body is all remaining buffered data plus everything read until EOF —
EOF ends the loop without an error. -/
def processWire (wire : List Char) : fetch_step :=
  if containsSub wire crlf then
    let s0 : istream_state := { data := wire, failed := false }
    let vs := extractToken s0
    let cs := extractUInt vs.2
    let ms := getlineS cs.2
    if ms.2.failed = true ∨ vs.1.take 5 ≠ "HTTP/".toList then
      .exn "Invalid response".toList
    else
      let hs := readHeaderLines (ms.2.data.length + 1) ms.2
      .ok { status_code := (cs.1 : Int), headers := hs.1, body := hs.2.data }
  else
    .exn eofWhileReadingMsg

/-- The request serialization of `fetch`: the `ostringstream` appends —
request line from the method and `uri.path()`, a `Host` header from
`uri.host()` alone, `Connection: close`, each map entry as
`key: value`, each line CRLF-terminated, then the blank line.  Nothing
else is written (there is no body in `options`). -/
def buildRequest (u : uri_components) (o : options) : List Char :=
  o.method ++ " ".toList ++ u.path ++ " HTTP/1.1".toList ++ crlf ++
    "Host: ".toList ++ u.host ++ crlf ++
    "Connection: close".toList ++ crlf ++
    o.headers.foldl (fun acc kv => acc ++ kv.1 ++ ": ".toList ++ kv.2 ++ crlf) [] ++
    crlf

/-- Source `restpp::fetch`, try block: resolve, connect, serialize and write
the request, then read and parse the reply; any step's exception
escapes as `fetch_step.exn`. -/
def fetchTry (u : uri_components) (o : options) (net : net_behavior) : fetch_step :=
  match net.resolveStep with
  | .error m => .exn m
  | .ok _ =>
    match net.connectStep with
    | .error m => .exn m
    | .ok _ =>
      let _req := buildRequest u o
      match net.writeStep with
      | .error m => .exn m
      | .ok _ => processWire net.wire

/-- Source `restpp::fetch`: the try block's result, with the catch handler
turning any escaped exception into `response{500, "", e.what()}`. -/
def fetch (u : uri_components) (o : options) (net : net_behavior) : response :=
  match fetchTry u o net with
  | .ok r => r
  | .exn m => { status_code := 500, headers := [], body := m }

/-- Concatenation of a list of strings. -/
def concatAll : List (List Char) → List Char
  | [] => []
  | x :: xs => x ++ concatAll xs

/-- Modelled from the amended description of the request wire format:
request line `<METHOD> <path> HTTP/1.1` with the path exactly as the
URI stores it, a `Host` header never carrying a port, `Connection:
close`, the header map rendered entry by entry in its key-sorted
iteration order, every line CRLF-terminated, a final blank line, and no
body bytes.  Stated independently of `buildRequest` to be compared with
it. -/
def requestWireDescribed (u : uri_components) (o : options) : List Char :=
  o.method ++ " ".toList ++ u.path ++ " HTTP/1.1".toList ++ crlf ++
    "Host: ".toList ++ u.host ++ crlf ++
    "Connection: close".toList ++ crlf ++
    concatAll (o.headers.map (fun kv => kv.1 ++ ": ".toList ++ kv.2 ++ crlf)) ++
    crlf

/- ===== Shared sample values ===== -/

/-- The components `uri::parse` produces for `http://example.com/`. -/
def uriSample : uri_components :=
  { scheme := "http".toList
    host := "example.com".toList
    userInfo := []
    path := "/".toList
    query := []
    fragment := []
    port := 80 }

/-- The components `uri::parse` produces for `a://b`. -/
def uriAB : uri_components :=
  { scheme := "a".toList
    host := "b".toList
    userInfo := []
    path := "/".toList
    query := []
    fragment := []
    port := 80 }

/-- A network whose resolver call throws with message `boom`. -/
def netResolveBoom : net_behavior :=
  { resolveStep := .error "boom".toList
    connectStep := .ok ()
    writeStep := .ok ()
    wire := [] }

/- ===== Helper lemmas ===== -/

/-- A substring found at index `i` fits inside the string. -/
theorem findSub_some_le (l pat : List Char) (i : Nat) (h : findSub l pat = some i) :
    i + pat.length ≤ l.length := by
  induction l generalizing i with
  | nil =>
    by_cases hp : pat.isPrefixOf ([] : List Char)
    · have hplen := ( List.isPrefixOf_iff_prefix.mp hp).length_le
      simp only [findSub, hp, if_true, Option.some.injEq] at h
      simp only [List.length_nil] at hplen ⊢
      omega
    · simp [findSub, hp] at h
  | cons a as ih =>
    by_cases hp : pat.isPrefixOf (a :: as)
    · have hplen := ( List.isPrefixOf_iff_prefix.mp hp).length_le
      simp only [findSub, hp, if_true, Option.some.injEq] at h
      simp only [List.length_cons] at hplen ⊢
      omega
    · simp only [findSub, hp, if_false] at h
      rcases hfs : findSub as pat with _ | j
      · rw [hfs] at h
        simp at h
      · rw [hfs] at h
        simp at h
        have := ih j hfs
        simp only [List.length_cons]
        omega

/-- If some character strictly before the scheme-terminating colon is
not a legal scheme character, the scheme loop fails. -/
theorem schemeScan_none_of_bad (l : List Char) (x : Char)
    (hx : x ∈ l.takeWhile (fun c => c ≠ ':')) (hbad : isSchemeChar x = false) :
    schemeScan l = none := by
  induction l with
  | nil => simp [List.takeWhile] at hx
  | cons d ds ih =>
    by_cases hd : d = ':'
    · subst hd
      simp [List.takeWhile] at hx
    · rw [List.takeWhile_cons] at hx
      simp only [decide_eq_true_eq] at hx
      rw [if_pos (by simpa using hd)] at hx
      unfold schemeScan
      rw [if_neg hd]
      rcases List.mem_cons.mp hx with hxd | hxtail
      · subst hxd
        rw [if_neg (by simp [hbad])]
      · by_cases hds : isSchemeChar d
        · rw [if_pos hds, ih hxtail]
        · rw [if_neg hds]

/-- An alphabetic character is a legal scheme character. -/
theorem isSchemeChar_of_isAlpha (c : Char) (h : c.isAlpha = true) :
    isSchemeChar c = true := by
  simp [isSchemeChar, isAlnumC, h]

/-- The header-rendering left fold of `buildRequest` equals the
concatenation of the individually rendered entries. -/
theorem foldl_append_concatAll (l : List (List Char × List Char)) (acc : List Char) :
    l.foldl (fun a kv => a ++ kv.1 ++ ": ".toList ++ kv.2 ++ crlf) acc =
      acc ++ concatAll (l.map (fun kv => kv.1 ++ ": ".toList ++ kv.2 ++ crlf)) := by
  induction l generalizing acc with
  | nil => simp [concatAll]
  | cons x xs ih =>
    rw [List.foldl_cons, List.map_cons, ih]
    simp only [concatAll]
    simp [List.append_assoc]

/- ===== C8 ===== -/

/-- C8: constructing a URI from the empty string is rejected with the
empty-input error (the `uri_exception` the constructor throws) and
never yields a URI value. -/
theorem c8_empty_input_rejected :
    uri_from_string [] = .error .emptyInput := rfl

/- ===== C10 ===== -/

/-- C10: every non-empty input containing `://` is accepted by URI
construction — the parser performs no character-set validation, so no
such input is ever rejected. -/
theorem c10_no_character_validation (s : List Char) (h1 : s ≠ [])
    (h2 : containsSub s [':', '/', '/'] = true) :
    ∃ u, uri_from_string s = .ok u := by
  unfold containsSub at h2
  obtain ⟨i, hi⟩ := Option.isSome_iff_exists.mp h2
  have hb : i + 3 ≤ s.length := by
    have := findSub_some_le s [':', '/', '/'] i hi
    simpa using this
  rcases hres : uri_parse s with e | u
  · exfalso
    unfold uri_parse at hres
    rw [hi] at hres
    simp only [] at hres
    rw [if_neg (by omega)] at hres
    exact Except.noConfusion hres
  · refine ⟨u, ?_⟩
    unfold uri_from_string
    rw [if_neg (fun h0 => h1 (List.length_eq_zero.mp h0)), hres]

/-- Witness for C10 at the concrete input `http://x`. -/
theorem c10_no_character_validation_witness :
    ("http://x".toList ≠ [] ∧ containsSub "http://x".toList [':', '/', '/'] = true) ∧
    ∃ u, uri_from_string "http://x".toList = .ok u :=
  ⟨⟨by decide, by decide⟩,
   c10_no_character_validation "http://x".toList (by decide) (by decide)⟩

/- ===== C3 ===== -/

/-- C3 counterexample: at the specification's own example input the
parser keeps `?q=1#frag` inside the path and leaves the query and
fragment components empty, so the decomposition the claim describes
does not happen. -/
theorem c3_counterexample :
    uri_from_string "https://example.com:8443/a/b?q=1#frag".toList =
      .ok { scheme := "https".toList, host := "example.com".toList, userInfo := [],
            path := "/a/b?q=1#frag".toList, query := [], fragment := [], port := 8443 } ∧
    ("/a/b?q=1#frag".toList ≠ "/a/b".toList ∧
      ([] : List Char) ≠ "q=1".toList ∧ ([] : List Char) ≠ "frag".toList) :=
  ⟨rfl, by decide⟩

/-- C3 amended: `parse("https://example.com:8443/a/b?q=1#frag")` yields
host `example.com` and port `8443`, but the path is the entire
remainder `/a/b?q=1#frag`, and the query and fragment components of
every successfully parsed URI are empty — the basic parser performs no
query/fragment split (and no lowercasing). -/
theorem c3_amended_components :
    uri_from_string "https://example.com:8443/a/b?q=1#frag".toList =
      .ok { scheme := "https".toList, host := "example.com".toList, userInfo := [],
            path := "/a/b?q=1#frag".toList, query := [], fragment := [], port := 8443 } ∧
    ∀ s r, uri_parse s = .ok r → r.query = [] ∧ r.fragment = [] := by
  refine ⟨rfl, ?_⟩
  intro s r h
  rw [uri_parse] at h
  simp only [] at h
  rcases hf : findSub s [':', '/', '/'] with _ | i <;> rw [hf] at h <;> simp only [] at h <;>
    split at h
  · exact Except.noConfusion h
  · injection h with h
    subst h
    exact ⟨rfl, rfl⟩
  · exact Except.noConfusion h
  · injection h with h
    subst h
    exact ⟨rfl, rfl⟩

/-- Witness for the quantified half of the C3 theorem at the concrete
input `a://b`. -/
theorem c3_amended_components_witness :
    uri_parse "a://b".toList = .ok uriAB ∧ (uriAB.query = [] ∧ uriAB.fragment = []) :=
  ⟨rfl, c3_amended_components.2 "a://b".toList uriAB rfl⟩

/- ===== C7 ===== -/

/-- C7 counterexample: `ht!tp://x` is accepted by the public URI
constructor with scheme `ht!tp` — no `InvalidScheme` (or any other)
failure occurs, because `uri::parse` never validates characters. -/
theorem c7_counterexample :
    uri_from_string "ht!tp://x".toList =
      .ok { scheme := "ht!tp".toList, host := "x".toList, userInfo := [],
            path := "/".toList, query := [], fragment := [], port := 80 } :=
  rfl

/-- C7 amended: the validating scanner `inner_parse_out::parse_from`
does reject an absolute URI whose scheme holds a character outside
the legal set or whose first character is not alphabetic — but it is
dead code: the `uri` class never calls it, and `uri::parse` accepts
such inputs (see the counterexample). -/
theorem c7_amended_scheme_validation (s : List Char)
    (habs : hasColonBeforeSlash s = true)
    (hbad : (∃ x ∈ s.takeWhile (fun c => c ≠ ':'), isSchemeChar x = false) ∨
      (∃ c, s.head? = some c ∧ c.isAlpha = false)) :
    parse_from s = none := by
  cases s with
  | nil => simp [hasColonBeforeSlash] at habs
  | cons c cs =>
    by_cases halpha : c.isAlpha = true
    · rcases hbad with ⟨x, hx, hxbad⟩ | ⟨c0, hc0, h0⟩
      · have hcne : ¬(c = ':') := by
          intro hceq
          subst hceq
          exact absurd halpha (by decide)
        rw [List.takeWhile_cons] at hx
        rw [if_pos (by simpa using hcne)] at hx
        rcases List.mem_cons.mp hx with hxc | hxtail
        · subst hxc
          rw [isSchemeChar_of_isAlpha x halpha] at hxbad
          exact Bool.noConfusion hxbad
        · have hscan := schemeScan_none_of_bad cs x hxtail hxbad
          simp only [parse_from, habs, if_true, halpha, hscan]
      · simp only [List.head?] at hc0
        injection hc0 with hc0
        subst hc0
        rw [halpha] at h0
        exact Bool.noConfusion h0
    · simp only [parse_from, habs, if_true]
      rw [if_neg halpha]

/-- Witness for C7 at the spec's concrete input `ht!tp://x`. -/
theorem c7_amended_scheme_validation_witness :
    hasColonBeforeSlash "ht!tp://x".toList = true ∧
    parse_from "ht!tp://x".toList = none :=
  ⟨by decide,
   c7_amended_scheme_validation "ht!tp://x".toList (by decide) (Or.inl (by decide))⟩

/- ===== C1 ===== -/

/-- C1 counterexample: the spec's own example exchange, with five
extra bytes after the five announced by `Content-Length`; fetch reads
and returns all of them, so the body is not the announced five bytes. -/
theorem c1_counterexample :
    fetch uriSample options_default
        (netOk "HTTP/1.1 200 OK\r\nContent-Length: 5\r\n\r\nhelloEXTRA".toList) =
      { status_code := 200, headers := "Content-Length: 5\r\n".toList,
        body := "helloEXTRA".toList } ∧
    "helloEXTRA".toList ≠ "hello".toList :=
  ⟨rfl, by decide⟩

set_option maxHeartbeats 1600000 in
/-- C1 amended: fetch never consults `Content-Length`; the body is
always everything the peer sends after the header-terminating line
until it closes the connection, whether or not a `Content-Length`
header is present, and the EOF that ends the read is treated as the
normal terminator. -/
theorem c1_amended_body_reads_to_eof (u : uri_components) (o : options) (body : List Char) :
    fetch u o (netOk ("HTTP/1.1 200 OK\r\nContent-Length: 5\r\n\r\n".toList ++ body)) =
      { status_code := 200, headers := "Content-Length: 5\r\n".toList, body := body } ∧
    fetch u o (netOk ("HTTP/1.1 200 OK\r\n\r\n".toList ++ body)) =
      { status_code := 200, headers := [], body := body } :=
  ⟨rfl, rfl⟩

/- ===== C5 ===== -/

/-- C5 counterexample: a chunked reply is not rejected; fetch returns
an ordinary 200 response whose body is the raw chunked stream,
chunk-size lines included. -/
theorem c5_counterexample :
    fetch uriSample options_default
        (netOk "HTTP/1.1 200 OK\r\nTransfer-Encoding: chunked\r\n\r\n5\r\nhello\r\n0\r\n\r\n".toList) =
      { status_code := 200, headers := "Transfer-Encoding: chunked\r\n".toList,
        body := "5\r\nhello\r\n0\r\n\r\n".toList } :=
  rfl

/-- C5 amended: fetch never inspects `Transfer-Encoding`; a chunked
reply is parsed like any other, and the entire raw chunked payload
(size lines and trailer included) becomes the response body. -/
theorem c5_amended_chunked_passthrough (u : uri_components) (o : options) (raw : List Char) :
    fetch u o (netOk ("HTTP/1.1 200 OK\r\nTransfer-Encoding: chunked\r\n\r\n".toList ++ raw)) =
      { status_code := 200, headers := "Transfer-Encoding: chunked\r\n".toList, body := raw } :=
  rfl

/- ===== C6 ===== -/

/-- C6 counterexample: a reply whose status line does not start with
`HTTP/` makes fetch return an ordinary response value — status 500,
empty headers, body `Invalid response` — not a typed
`FetchError::InvalidResponse` (no such type exists in the code). -/
theorem c6_counterexample :
    fetch uriSample options_default (netOk "BANANA 200 OK\r\n\r\n".toList) =
      { status_code := 500, headers := [], body := "Invalid response".toList } :=
  rfl

/-- The status-line check in isolation: a buffered reply whose first
token does not start with `HTTP/` raises
`runtime_error("Invalid response")`. -/
theorem processWire_exn_invalid (wire : List Char)
    (hcrlf : containsSub wire crlf = true)
    (hbad : (extractToken { data := wire, failed := false }).1.take 5 ≠ "HTTP/".toList) :
    processWire wire = .exn "Invalid response".toList := by
  simp only [processWire]
  rw [if_pos hcrlf, if_pos (Or.inr hbad)]

/-- C6 amended: the first line is parsed as
`HTTP/<version> <status-code> <reason...>`, and a malformed or missing
`HTTP/` prefix makes fetch throw `runtime_error("Invalid response")`,
which the catch-all turns into the response `{500, "", "Invalid
response"}` — not into a typed `FetchError::InvalidResponse`. -/
theorem c6_amended_invalid_status_line (u : uri_components) (o : options)
    (net : net_behavior)
    (hr : net.resolveStep = .ok ()) (hc : net.connectStep = .ok ())
    (hw : net.writeStep = .ok ())
    (hcrlf : containsSub net.wire crlf = true)
    (hbad : (extractToken { data := net.wire, failed := false }).1.take 5 ≠ "HTTP/".toList) :
    fetch u o net = { status_code := 500, headers := [], body := "Invalid response".toList } := by
  obtain ⟨rs, cst, ws, w⟩ := net
  simp only [] at hr hc hw hcrlf hbad
  subst hr
  subst hc
  subst hw
  unfold fetch fetchTry
  simp only []
  rw [processWire_exn_invalid w hcrlf hbad]

/-- Witness for C6 at a concrete malformed reply. -/
theorem c6_amended_invalid_status_line_witness :
    (containsSub "XTTP/1.1 200 OK\r\n\r\n".toList crlf = true ∧
      (extractToken (⟨"XTTP/1.1 200 OK\r\n\r\n".toList, false⟩ : istream_state)).1.take 5 ≠
        "HTTP/".toList) ∧
    fetch uriSample options_default (netOk "XTTP/1.1 200 OK\r\n\r\n".toList) =
      { status_code := 500, headers := [], body := "Invalid response".toList } :=
  ⟨⟨by decide, by decide⟩,
   c6_amended_invalid_status_line uriSample options_default
     (netOk "XTTP/1.1 200 OK\r\n\r\n".toList) rfl rfl rfl (by decide) (by decide)⟩

/- ===== C2 ===== -/

/-- C2 counterexample: when resolution throws, fetch does not produce
a typed `FetchError::Internal` value — it returns an ordinary response
with status 500 and the message as body (no `FetchError` type exists
anywhere in the code). -/
theorem c2_counterexample :
    fetch uriSample options_default netResolveBoom =
      { status_code := 500, headers := [], body := "boom".toList } :=
  rfl

/-- C2 amended: fetch is total — for every URI, options and network
behavior it returns a response value: either the one parsed from the
wire, or, when any step throws, the catch-all's
`{500, "", e.what()}`.  No error ever propagates, and no typed error
channel exists. -/
theorem c2_amended_total_response (u : uri_components) (o : options) (net : net_behavior) :
    (∃ r, fetchTry u o net = .ok r ∧ fetch u o net = r) ∨
    (∃ m, fetchTry u o net = .exn m ∧
      fetch u o net = { status_code := 500, headers := [], body := m }) := by
  cases h : fetchTry u o net with
  | ok r => exact Or.inl ⟨r, rfl, by unfold fetch; rw [h]⟩
  | exn m => exact Or.inr ⟨m, rfl, by unfold fetch; rw [h]⟩

/- ===== C9 ===== -/

/-- C9: whenever any internal step of fetch throws, the catch handler
returns an ordinary response with status 500, empty headers and the
exception message as the body. -/
theorem c9_exception_to_500_response (u : uri_components) (o : options)
    (net : net_behavior) (m : List Char)
    (h : fetchTry u o net = .exn m) :
    fetch u o net = { status_code := 500, headers := [], body := m } := by
  unfold fetch
  rw [h]

/-- Witness for C9 at a failing resolver. -/
theorem c9_exception_to_500_response_witness :
    fetchTry uriAB options_default netResolveBoom = .exn "boom".toList ∧
    fetch uriAB options_default netResolveBoom =
      { status_code := 500, headers := [], body := "boom".toList } :=
  ⟨rfl, c9_exception_to_500_response uriAB options_default netResolveBoom "boom".toList rfl⟩

/- ===== C4 ===== -/

set_option maxRecDepth 8192 in
set_option maxHeartbeats 1600000 in
/-- C4 counterexample: with URI port 8443 and headers inserted as
`X-B` then `X-A`, the serialized request names the host without the
non-default port and renders the map entries in key-sorted order
(`X-A` before `X-B`), not insertion order. -/
theorem c4_counterexample :
    buildRequest
        { scheme := "http".toList, host := "example.com".toList, userInfo := [],
          path := "/p".toList, query := [], fragment := [], port := 8443 }
        { method := "GET".toList,
          headers := mapInsert (mapInsert options_default.headers
            ("X-B".toList, "1".toList)) ("X-A".toList, "2".toList) } =
      ("GET /p HTTP/1.1\r\nHost: example.com\r\nConnection: close\r\n" ++
        "User-Agent: restpp.io client\r\nX-A: 2\r\nX-B: 1\r\n\r\n").toList ∧
    containsSub
      (buildRequest
        { scheme := "http".toList, host := "example.com".toList, userInfo := [],
          path := "/p".toList, query := [], fragment := [], port := 8443 }
        { method := "GET".toList,
          headers := mapInsert (mapInsert options_default.headers
            ("X-B".toList, "1".toList)) ("X-A".toList, "2".toList) })
      "8443".toList = false :=
  ⟨rfl, by decide⟩

/-- C4 amended: the serialized request is exactly the request line
`<METHOD> <path> HTTP/1.1` (the stored path already carrying any query
and fragment), a `Host` header from `uri.host()` never including a
port, `Connection: close`, the header map's entries in its key-sorted
iteration order, every line CRLF-terminated, a final blank line, and
no body bytes. -/
theorem c4_amended_request_serialization (u : uri_components) (o : options) :
    buildRequest u o = requestWireDescribed u o := by
  unfold buildRequest requestWireDescribed
  rw [foldl_append_concatAll]
  simp [List.append_assoc]

